import Mathlib

/-!
Verification of the SBOM graph construction core of the cyclonedx-webpack
plugin (src/webpack-plugin/bomGenerator.js).  The module-edge filtering,
package-identity computation, component/relation insertion, the broken
dependency lookup and the root detector are embedded as executable Lean
functions; filesystem access (readPkgUp) is a function parameter and the
external model classes (Component, Dependency, PackageURL) are modelled by
their contracts as documented for them.
-/

set_option maxRecDepth 4000

namespace Bomgen

/-- JS truthiness of an optional string value: undefined and the empty
string are falsy, every other string is truthy. -/
def jsTruthy : Option String → Bool
  | none => false
  | some s => !(s == "")

/-- Boolean prefix test on character lists, used to embed the anchored
regular expression test of the source. -/
def listPrefix : List Char → List Char → Bool
  | [], _ => true
  | _ :: _, [] => false
  | a :: as, b :: bs => a == b && listPrefix as bs

/-- Embedding of the test of the source regex matching paths that start with
the literal token ignored or the literal token external.  The regex object
is created fresh for every edge and the two test calls short-circuit, so the
global flag of the regex has no observable effect and the test is exactly an
anchored case-sensitive prefix match. -/
def ignoredMatcher (s : String) : Bool :=
  listPrefix "ignored".toList s.toList || listPrefix "external".toList s.toList

/-- A package descriptor as read from a package manifest.  Only name, scope
and version are read by the identity computation; `extra` stands for all the
other manifest fields a package manifest may carry. -/
structure Pkg where
  name : Option String
  scope : Option String
  version : Option String
  extra : List (String × String)
  deriving DecidableEq, Repr

/-- Modelled from the spec: the string rendering of the external package-URL
value, per the documented identity format pkg:npm/[scope/]name@version; the
version segment is rendered only when the version is truthy. -/
def purlToString (group : Option String) (name : String) (version : Option String) : String :=
  "pkg:npm/"
    ++ (match group with
        | some g => g ++ "/"
        | none => "")
    ++ name
    ++ (if jsTruthy version then "@" ++ version.getD "" else "")

/-- Embedding of toPackageURL from the source: undefined when the package has
no truthy name; otherwise the package-URL string over the npm ecosystem, the
scope prefixed with its marker when truthy, the name and the version. -/
def toPackageURL (module : Pkg) : Option String :=
  if !(jsTruthy module.name) then none
  else
    some (purlToString
      (if jsTruthy module.scope then some ("@" ++ module.scope.getD "") else none)
      (module.name.getD "") module.version)

/-- Result of a successful readPkgUp call: the located package manifest and
the path at which it was found. -/
structure ReadPkgUpResult where
  package : Pkg
  path : String
  deriving DecidableEq, Repr

/-- The issuer record of a webpack stats module: carries the resource path of
the requesting module. -/
structure Issuer where
  resource : Option String
  deriving DecidableEq, Repr

/-- A webpack stats module record, restricted to the two fields the source
reads: the issuer (requester) and the resource (dependency) path. -/
structure ModuleData where
  issuer : Option Issuer
  resource : Option String
  deriving DecidableEq, Repr

/-- Modelled from the spec: an external-model Component wraps the package it
was built from. -/
structure Component where
  package : Pkg
  deriving DecidableEq, Repr

/-- Modelled from the spec: the public reference of an external-model
Component is the canonical identity of the wrapped package. -/
def Component.bomRef (c : Component) : Option String := toPackageURL c.package

/-- Modelled from the spec: an external-model Dependency is a relation
holder with a reference and the list of references it depends on.  The
source pushes whole Dependency objects onto the list; the pushed objects are
never mutated after being pushed (a holder receives its single push in the
same iteration that creates it), so recording their references is exact. -/
structure Dependency where
  ref : Option String
  dependsOn : List (Option String)
  deriving DecidableEq, Repr

/-- The state buildBom mutates: the component list and dependency list of
the bom plus the local bomRefLookup array.  The source also declares a local
pkgDependencies array that is never used anywhere. -/
structure BomState where
  components : List Component
  dependencies : List Dependency
  bomRefLookup : List (Option String)
  deriving DecidableEq, Repr

/-- Property access for the field ref on a string primitive: always
undefined, since neither a string value nor its prototype has such a
field. -/
def jsStringFieldRef (_ : String) : Option String := none

/-- Embedding of findDependencyByRef: the for-in loop of the source ranges
over the index keys of the dependency array, which are the decimal strings
of the indices; the ref field of such a string key is undefined, so the
guard of the loop never fires and the function falls through to
undefined. -/
def findDependencyByRef (deps : List Dependency) (ref : Option String) : Option String :=
  ((List.range deps.length).map toString).findSome? fun d =>
    if jsTruthy (jsStringFieldRef d) && (jsStringFieldRef d == ref) then some d else none

/-- Embedding of one iteration of the loop of buildBom over the stats
modules.  readPkgUp is the external locator: an exception is an error value,
a lookup that finds nothing is ok none.  The conditional of the source on
bomRefLookup.includes(requesterBomRef) has both of its branches entirely
commented out and is a no-op, and the popper.js console.log is output only;
neither is modelled.  In the branch where findDependencyByRef returns a
value, the source would read the field _dependencies of a string key,
obtain undefined and call push on it, which throws a TypeError. -/
def processEdge (readPkgUp : String → Except Unit (Option ReadPkgUpResult))
    (st : BomState) (moduleData : ModuleData) : Except String BomState :=
  match moduleData.issuer, moduleData.resource with
  | none, _ => Except.ok st
  | some _, none => Except.ok st
  | some issuer, some dependency =>
    if dependency == "" then Except.ok st else
    match issuer.resource with
    | none => Except.ok st
    | some requester =>
      if requester == "" then Except.ok st else
      if ignoredMatcher requester then Except.ok st else
      -- the source wraps both readPkgUp calls in one try/catch that only
      -- logs: a throw leaves the corresponding variable undefined, and a
      -- throw on the requester call means the dependency call never runs
      match readPkgUp requester with
      | Except.error _ => Except.ok st
      | Except.ok none => Except.ok st
      | Except.ok (some requesterPkg) =>
        match readPkgUp dependency with
        | Except.error _ => Except.ok st
        | Except.ok none => Except.ok st
        | Except.ok (some dependencyPkg) =>
          if st.bomRefLookup.contains (toPackageURL dependencyPkg.package) then Except.ok st else
          match findDependencyByRef st.dependencies (toPackageURL requesterPkg.package) with
          | some _ =>
            -- dr is bound to an array index key, a plain string
            match findDependencyByRef st.dependencies (toPackageURL dependencyPkg.package) with
            | some _ =>
              Except.ok { components := st.components ++ [{ package := dependencyPkg.package }],
                          dependencies := st.dependencies,
                          bomRefLookup := st.bomRefLookup ++ [toPackageURL dependencyPkg.package] }
            | none =>
              Except.error "TypeError"
          | none =>
            match findDependencyByRef
                (st.dependencies ++ [{ ref := toPackageURL requesterPkg.package, dependsOn := [] }])
                (toPackageURL dependencyPkg.package) with
            | some _ =>
              Except.ok { components := st.components ++ [{ package := dependencyPkg.package }],
                          dependencies := st.dependencies ++
                            [{ ref := toPackageURL requesterPkg.package, dependsOn := [] }],
                          bomRefLookup := st.bomRefLookup ++ [toPackageURL dependencyPkg.package] }
            | none =>
              -- dr and the fresh dependency holder are both added, and the
              -- dependency holder is pushed onto dr, which sits in the
              -- dependency list already: dr receives its final value here
              Except.ok { components := st.components ++ [{ package := dependencyPkg.package }],
                          dependencies := st.dependencies ++
                            [{ ref := toPackageURL requesterPkg.package,
                               dependsOn := [Component.bomRef { package := dependencyPkg.package }] },
                             { ref := Component.bomRef { package := dependencyPkg.package },
                               dependsOn := [] }],
                          bomRefLookup := st.bomRefLookup ++ [toPackageURL dependencyPkg.package] }

/-- The bom and lookup arrays start empty. -/
def emptyBom : BomState := { components := [], dependencies := [], bomRefLookup := [] }

/-- Embedding of buildBom: the loop of the source over the webpack stats
modules, threading the bom and the lookup array. -/
def buildBom (readPkgUp : String → Except Unit (Option ReadPkgUpResult))
    (modules : List ModuleData) : Except String BomState :=
  modules.foldlM (processEdge readPkgUp) emptyBom

/-- The identities of the components of the bom. -/
def componentRefs (st : BomState) : List (Option String) :=
  st.components.map Component.bomRef

/-- The targets of all recorded relations: the concatenation of the
dependsOn lists of all relation holders. -/
def relTargets (st : BomState) : List (Option String) :=
  (st.dependencies.map Dependency.dependsOn).flatten

/-- All recorded relations as ordered pairs of identities: holder reference
paired with each reference in its dependsOn list. -/
def relPairs (st : BomState) : List (Option String × Option String) :=
  (st.dependencies.map (fun d => d.dependsOn.map (fun t => (d.ref, t)))).flatten

/-- Modelled from the spec: a node of the hierarchical dependency tree used
by findRoots, carrying the list of packages requiring it, its originating
file locations and the root-package mark set by setRootPackage. -/
structure DepNode where
  requiredBy : List String
  locations : List String
  rootPackage : Bool
  deriving DecidableEq, Repr

/-- Modelled from the spec: the per-name entry of the lookup map, keyed by
version. -/
structure VersionMap where
  versions : List (String × DepNode)
  deriving DecidableEq, Repr

/-- Modelled from the spec: the hierarchical dependency tree, a lookup keyed
by name then by version, plus the list of collected roots. -/
structure DependencyTree where
  lookupMap : List (String × VersionMap)
  roots : List DepNode
  deriving DecidableEq, Repr

/-- Embedding of the JS substring containment test used on locations. -/
def strIncludes (s pat : String) : Bool :=
  (List.range (s.toList.length + 1)).any fun i => listPrefix pat.toList (s.toList.drop i)

/-- The root condition of findRoots: required by nothing and with some
location outside any node_modules segment. -/
def isRootNode (node : DepNode) : Bool :=
  node.requiredBy.length == 0 &&
    node.locations.any fun location => !(strIncludes location "node_modules")

/-- Marking a node as a root package. -/
def setRoot (node : DepNode) : DepNode := { node with rootPackage := true }

/-- All nodes of the tree in iteration order: names in key order, then
versions in key order. -/
def allNodes (t : DependencyTree) : List DepNode :=
  (t.lookupMap.map (fun entry => entry.2.versions.map Prod.snd)).flatten

/-- Embedding of findRoots: every node whose requiredBy list is empty and
that has a location outside node_modules is marked as a root package and
appended, in iteration order, to the roots of the tree.  Iterating the keys
of a JS object and indexing back into it visits exactly its entries in
order, which the structural map below reproduces; the mutation of a node is
visible both through the lookup map and through the appended roots. -/
def findRoots (t : DependencyTree) : DependencyTree :=
  { lookupMap := t.lookupMap.map fun entry =>
      (entry.1, ⟨entry.2.versions.map fun vn =>
        (vn.1, if isRootNode vn.2 then setRoot vn.2 else vn.2)⟩),
    roots := t.roots ++ ((allNodes t).filter isRootNode).map setRoot }

/-- Lookup of a node by package name and version. -/
def lookupNode (t : DependencyTree) (name version : String) : Option DepNode :=
  (t.lookupMap.lookup name).bind fun vm => vm.versions.lookup version

/-- The state produced by the insertion branch of processEdge: the
dependency package becomes a component, a fresh relation holder for the
requester reference is linked to a fresh holder for the dependency
reference, and the dependency reference is recorded in the lookup array. -/
def insertState (st : BomState) (reqRef : Option String) (dp : Pkg) : BomState :=
  { components := st.components ++ [{ package := dp }],
    dependencies := st.dependencies ++
      [{ ref := reqRef, dependsOn := [toPackageURL dp] },
       { ref := toPackageURL dp, dependsOn := [] }],
    bomRefLookup := st.bomRefLookup ++ [toPackageURL dp] }

/-- Whether a readPkgUp call for a path throws or finds nothing. -/
def resolveFails (readPkgUp : String → Except Unit (Option ReadPkgUpResult))
    (p : String) : Bool :=
  match readPkgUp p with
  | Except.error _ => true
  | Except.ok none => true
  | Except.ok (some _) => false

/-- Invariant carried through the loop of buildBom: component references
and relation targets are duplicate-free and recorded in the lookup array,
and the lookup array itself is duplicate-free. -/
def Inv (st : BomState) : Prop :=
  (componentRefs st).Nodup ∧ (relTargets st).Nodup ∧ st.bomRefLookup.Nodup ∧
    (∀ x ∈ componentRefs st, x ∈ st.bomRefLookup) ∧
    (∀ x ∈ relTargets st, x ∈ st.bomRefLookup)

/-- The located manifest of the first example requester. -/
def r1Found : ReadPkgUpResult :=
  { package := { name := some "r1", scope := none, version := some "1.0.0", extra := [] },
    path := "/r1/package.json" }

/-- The located manifest of the second example requester. -/
def r2Found : ReadPkgUpResult :=
  { package := { name := some "r2", scope := none, version := some "1.0.0", extra := [] },
    path := "/r2/package.json" }

/-- The located manifest of the shared example dependency. -/
def dFound : ReadPkgUpResult :=
  { package := { name := some "d", scope := none, version := some "2.0.0", extra := [] },
    path := "/d/package.json" }

/-- Concrete locator: three module paths resolving to three distinct
packages. -/
def exResolve : String → Except Unit (Option ReadPkgUpResult) := fun p =>
  if p == "/r1/a.js" then Except.ok (some r1Found)
  else if p == "/r2/b.js" then Except.ok (some r2Found)
  else if p == "/d/c.js" then Except.ok (some dFound)
  else Except.ok none

/-- Two edges with distinct requesters and the same dependency. -/
def exModules : List ModuleData :=
  [ { issuer := some { resource := some "/r1/a.js" }, resource := some "/d/c.js" },
    { issuer := some { resource := some "/r2/b.js" }, resource := some "/d/c.js" } ]

/-- The state buildBom produces on exResolve and exModules. -/
def exSt : BomState :=
  { components := [{ package := { name := some "d", scope := none, version := some "2.0.0", extra := [] } }],
    dependencies := [{ ref := some "pkg:npm/r1@1.0.0", dependsOn := [some "pkg:npm/d@2.0.0"] },
                     { ref := some "pkg:npm/d@2.0.0", dependsOn := [] }],
    bomRefLookup := [some "pkg:npm/d@2.0.0"] }

/-- Concrete locator under which every path resolves to one and the same
package, as happens for any two module files of the same package. -/
def selfResolve : String → Except Unit (Option ReadPkgUpResult) := fun _ =>
  Except.ok (some { package := { name := some "app", scope := none, version := some "1.0.0", extra := [] }, path := "/app/package.json" })

/-- A single edge between two files of the same package. -/
def selfModules : List ModuleData :=
  [ { issuer := some { resource := some "/app/a.js" }, resource := some "/app/b.js" } ]

/-- The shared identity of both endpoints of the selfModules edge. -/
def selfLoopRef : Option String := some "pkg:npm/app@1.0.0"

/-- The state buildBom produces on selfResolve and selfModules. -/
def selfSt : BomState :=
  { components := [{ package := { name := some "app", scope := none, version := some "1.0.0", extra := [] } }],
    dependencies := [{ ref := selfLoopRef, dependsOn := [selfLoopRef] },
                     { ref := selfLoopRef, dependsOn := [] }],
    bomRefLookup := [selfLoopRef] }

/-- A locator that always throws. -/
def failResolve : String → Except Unit (Option ReadPkgUpResult) := fun _ =>
  Except.error ()

/-- A package manifest with only the identity-relevant fields. -/
def pkgA : Pkg := { name := some "left-pad", scope := none, version := some "1.3.0", extra := [] }

/-- The same identity-relevant fields as pkgA with an additional manifest
field. -/
def pkgB : Pkg :=
  { name := some "left-pad", scope := none, version := some "1.3.0",
    extra := [("description", "pads left")] }

/-- A node required by nothing with a location outside node_modules. -/
def rootNode : DepNode := { requiredBy := [], locations := ["/app"], rootPackage := false }

/-- A one-node dependency tree. -/
def exTree : DependencyTree :=
  { lookupMap := [("app", { versions := [("1.0.0", rootNode)] })], roots := [] }

theorem findDep_none (deps : List Dependency) (ref : Option String) :
    findDependencyByRef deps ref = none := by
  unfold findDependencyByRef
  generalize (List.range deps.length).map toString = l
  induction l with
  | nil => rfl
  | cons d l ih =>
    rw [List.findSome?_cons]
    simp [jsStringFieldRef, jsTruthy]

theorem exceptOkBind {α β : Type} (a : α) (f : α → Except String β) :
    (Except.ok a >>= f) = f a := rfl

theorem exceptErrBind {α β : Type} (e : String) (f : α → Except String β) :
    ((Except.error e : Except String α) >>= f) = Except.error e := rfl

theorem processEdge_insert (readPkgUp : String → Except Unit (Option ReadPkgUpResult))
    (st : BomState) (req dep : String) (rp dp : ReadPkgUpResult)
    (hreq : (req == "") = false) (hdep : (dep == "") = false)
    (hig : ignoredMatcher req = false)
    (hr : readPkgUp req = Except.ok (some rp)) (hd : readPkgUp dep = Except.ok (some dp))
    (hc : st.bomRefLookup.contains (toPackageURL dp.package) = false) :
    processEdge readPkgUp st { issuer := some { resource := some req }, resource := some dep } =
      Except.ok (insertState st (toPackageURL rp.package) dp.package) := by
  simp only [processEdge, hreq, hdep, hig, hr, hd, hc, findDep_none, insertState,
    Component.bomRef, Bool.false_eq_true, if_false]

theorem processEdge_spec (readPkgUp : String → Except Unit (Option ReadPkgUpResult))
    (st : BomState) (m : ModuleData) :
    processEdge readPkgUp st m = Except.ok st ∨
    ∃ dep fnd reqRef, m.resource = some dep ∧ readPkgUp dep = Except.ok (some fnd) ∧
      st.bomRefLookup.contains (toPackageURL fnd.package) = false ∧
      processEdge readPkgUp st m = Except.ok (insertState st reqRef fnd.package) := by
  obtain ⟨iss, res⟩ := m
  cases iss with
  | none => exact Or.inl rfl
  | some issuer =>
    cases res with
    | none => exact Or.inl rfl
    | some dep =>
      by_cases hdep : (dep == "") = true
      · left; simp [processEdge, hdep]
      · obtain ⟨ir⟩ := issuer
        cases ir with
        | none => left; simp [processEdge, hdep]
        | some req =>
          by_cases hreq : (req == "") = true
          · left; simp [processEdge, hdep, hreq]
          · by_cases hig : ignoredMatcher req = true
            · left; simp [processEdge, hdep, hreq, hig]
            · cases hr : readPkgUp req with
              | error e => left; simp [processEdge, hdep, hreq, hig, hr]
              | ok v =>
                cases v with
                | none => left; simp [processEdge, hdep, hreq, hig, hr]
                | some rp =>
                  cases hd : readPkgUp dep with
                  | error e => left; simp [processEdge, hdep, hreq, hig, hr, hd]
                  | ok w =>
                    cases w with
                    | none => left; simp [processEdge, hdep, hreq, hig, hr, hd]
                    | some dp =>
                      by_cases hc : st.bomRefLookup.contains (toPackageURL dp.package) = true
                      · left
                        have hcm : toPackageURL dp.package ∈ st.bomRefLookup := by
                          simpa using hc
                        simp [processEdge, hdep, hreq, hig, hr, hd, hcm]
                      · right
                        refine ⟨dep, dp, toPackageURL rp.package, rfl, hd,
                          by simpa using hc, ?_⟩
                        exact processEdge_insert readPkgUp st req dep rp dp
                          (by simpa using hreq) (by simpa using hdep)
                          (by simpa using hig) hr hd (by simpa using hc)

theorem containsFalse (l : List (Option String)) (a : Option String)
    (h : l.contains a = false) : a ∉ l := by
  intro hm
  have h2 : l.contains a = true := by simpa using hm
  rw [h] at h2
  cases h2

theorem foldlM_cons_ok (readPkgUp : String → Except Unit (Option ReadPkgUpResult))
    (m : ModuleData) (ms : List ModuleData) (st st' : BomState)
    (h : (m :: ms).foldlM (processEdge readPkgUp) st = Except.ok st') :
    ∃ s, processEdge readPkgUp st m = Except.ok s ∧
      ms.foldlM (processEdge readPkgUp) s = Except.ok st' := by
  rw [List.foldlM_cons] at h
  cases he : processEdge readPkgUp st m with
  | error e => rw [he, exceptErrBind] at h; cases h
  | ok s => rw [he, exceptOkBind] at h; exact ⟨s, rfl, h⟩

theorem buildFrom_append (readPkgUp : String → Except Unit (Option ReadPkgUpResult))
    (l₁ l₂ : List ModuleData) :
    ∀ (st₀ st₁ : BomState), l₁.foldlM (processEdge readPkgUp) st₀ = Except.ok st₁ →
      (l₁ ++ l₂).foldlM (processEdge readPkgUp) st₀ = l₂.foldlM (processEdge readPkgUp) st₁ := by
  induction l₁ with
  | nil =>
    intro st₀ st₁ h
    have h' : Except.ok st₀ = Except.ok st₁ := h
    injection h' with h2
    subst h2
    rfl
  | cons m l ih =>
    intro st₀ st₁ h
    obtain ⟨s, hs, hrest⟩ := foldlM_cons_ok readPkgUp m l st₀ st₁ h
    rw [List.cons_append, List.foldlM_cons, hs, exceptOkBind]
    exact ih s st₁ hrest

theorem buildFrom_ok (readPkgUp : String → Except Unit (Option ReadPkgUpResult))
    (ms : List ModuleData) :
    ∀ st : BomState, ∃ st', ms.foldlM (processEdge readPkgUp) st = Except.ok st' := by
  induction ms with
  | nil => intro st; exact ⟨st, rfl⟩
  | cons m l ih =>
    intro st
    rcases processEdge_spec readPkgUp st m with h | ⟨dep, fnd, reqRef, hres, hok, hcon, h⟩
    · obtain ⟨st', hst'⟩ := ih st
      exact ⟨st', by rw [List.foldlM_cons, h, exceptOkBind]; exact hst'⟩
    · obtain ⟨st', hst'⟩ := ih (insertState st reqRef fnd.package)
      exact ⟨st', by rw [List.foldlM_cons, h, exceptOkBind]; exact hst'⟩

theorem relPairs_insertState (st : BomState) (reqRef : Option String) (dp : Pkg) :
    relPairs (insertState st reqRef dp) = relPairs st ++ [(reqRef, toPackageURL dp)] := by
  simp [relPairs, insertState]

theorem relTargets_insertState (st : BomState) (reqRef : Option String) (dp : Pkg) :
    relTargets (insertState st reqRef dp) = relTargets st ++ [toPackageURL dp] := by
  simp [relTargets, insertState]

theorem componentRefs_insertState (st : BomState) (reqRef : Option String) (dp : Pkg) :
    componentRefs (insertState st reqRef dp) = componentRefs st ++ [toPackageURL dp] := by
  simp [componentRefs, insertState, Component.bomRef]

theorem relPairs_fold_mono (readPkgUp : String → Except Unit (Option ReadPkgUpResult))
    (ms : List ModuleData) :
    ∀ (st st' : BomState), ms.foldlM (processEdge readPkgUp) st = Except.ok st' →
      ∀ p ∈ relPairs st, p ∈ relPairs st' := by
  induction ms with
  | nil =>
    intro st st' h p hp
    have h' : Except.ok st = Except.ok st' := h
    injection h' with h2
    subst h2
    exact hp
  | cons m l ih =>
    intro st st' h p hp
    obtain ⟨s, hs, hrest⟩ := foldlM_cons_ok readPkgUp m l st st' h
    rcases processEdge_spec readPkgUp st m with h2 | ⟨dep, fnd, reqRef, hres, hok, hcon, h2⟩
    · have hse : st = s := by
        have h3 := h2.symm.trans hs
        injection h3
      subst hse
      exact ih st st' hrest p hp
    · have hse : insertState st reqRef fnd.package = s := by
        have h3 := h2.symm.trans hs
        injection h3
      subst hse
      refine ih _ st' hrest p ?_
      rw [relPairs_insertState]
      exact List.mem_append_left _ hp

theorem nodupSnoc (l : List (Option String)) (a : Option String)
    (h : l.Nodup) (ha : a ∉ l) : (l ++ [a]).Nodup := by
  rw [List.nodup_append]
  refine ⟨h, List.nodup_singleton a, ?_⟩
  intro x hx hxa
  rw [List.mem_singleton] at hxa
  exact ha (hxa ▸ hx)

theorem invEmpty : Inv emptyBom := by
  simp [Inv, emptyBom, componentRefs, relTargets]

theorem inv_insert (st : BomState) (reqRef : Option String) (dp : Pkg)
    (hc : st.bomRefLookup.contains (toPackageURL dp) = false) (h : Inv st) :
    Inv (insertState st reqRef dp) := by
  obtain ⟨h1, h2, h3, h4, h5⟩ := h
  have hnot : toPackageURL dp ∉ st.bomRefLookup := containsFalse _ _ hc
  refine ⟨?_, ?_, ?_, ?_, ?_⟩
  · rw [componentRefs_insertState]
    exact nodupSnoc _ _ h1 (fun hm => hnot (h4 _ hm))
  · rw [relTargets_insertState]
    exact nodupSnoc _ _ h2 (fun hm => hnot (h5 _ hm))
  · exact nodupSnoc _ _ h3 hnot
  · intro x hx
    rw [componentRefs_insertState] at hx
    rcases List.mem_append.mp hx with hx | hx
    · exact List.mem_append_left _ (h4 x hx)
    · exact List.mem_append_right _ hx
  · intro x hx
    rw [relTargets_insertState] at hx
    rcases List.mem_append.mp hx with hx | hx
    · exact List.mem_append_left _ (h5 x hx)
    · exact List.mem_append_right _ hx

theorem buildFrom_inv (readPkgUp : String → Except Unit (Option ReadPkgUpResult))
    (ms : List ModuleData) :
    ∀ (st st' : BomState), ms.foldlM (processEdge readPkgUp) st = Except.ok st' →
      Inv st → Inv st' := by
  induction ms with
  | nil =>
    intro st st' h hi
    have h' : Except.ok st = Except.ok st' := h
    injection h' with h2
    subst h2
    exact hi
  | cons m l ih =>
    intro st st' h hi
    obtain ⟨s, hs, hrest⟩ := foldlM_cons_ok readPkgUp m l st st' h
    rcases processEdge_spec readPkgUp st m with h2 | ⟨dep, fnd, reqRef, hres, hok, hcon, h2⟩
    · have hse : st = s := by
        have h3 := h2.symm.trans hs
        injection h3
      subst hse
      exact ih st st' hrest hi
    · have hse : insertState st reqRef fnd.package = s := by
        have h3 := h2.symm.trans hs
        injection h3
      subst hse
      exact ih _ st' hrest (inv_insert st reqRef fnd.package hcon hi)

theorem buildFrom_components (readPkgUp : String → Except Unit (Option ReadPkgUpResult))
    (ms : List ModuleData) :
    ∀ (st st' : BomState), ms.foldlM (processEdge readPkgUp) st = Except.ok st' →
      ∀ c ∈ st'.components, c ∈ st.components ∨
        ∃ m ∈ ms, ∃ dep fnd, m.resource = some dep ∧
          readPkgUp dep = Except.ok (some fnd) ∧ c.package = fnd.package := by
  induction ms with
  | nil =>
    intro st st' h c hc
    have h' : Except.ok st = Except.ok st' := h
    injection h' with h2
    subst h2
    exact Or.inl hc
  | cons m l ih =>
    intro st st' h c hc
    obtain ⟨s, hs, hrest⟩ := foldlM_cons_ok readPkgUp m l st st' h
    rcases processEdge_spec readPkgUp st m with h2 | ⟨dep, fnd, reqRef, hres, hok, hcon, h2⟩
    · have hse : st = s := by
        have h3 := h2.symm.trans hs
        injection h3
      subst hse
      rcases ih st st' hrest c hc with hin | ⟨m', hm', rest⟩
      · exact Or.inl hin
      · exact Or.inr ⟨m', List.mem_cons_of_mem m hm', rest⟩
    · have hse : insertState st reqRef fnd.package = s := by
        have h3 := h2.symm.trans hs
        injection h3
      subst hse
      rcases ih _ st' hrest c hc with hin | ⟨m', hm', rest⟩
      · rcases List.mem_append.mp hin with hin | hin
        · exact Or.inl hin
        · rw [List.mem_singleton] at hin
          exact Or.inr ⟨m, List.mem_cons_self m l, dep, fnd, hres, hok, by rw [hin]⟩
      · exact Or.inr ⟨m', List.mem_cons_of_mem m hm', rest⟩

theorem relPairs_map_snd (st : BomState) :
    (relPairs st).map Prod.snd = relTargets st := by
  obtain ⟨cs, ds, lu⟩ := st
  unfold relPairs relTargets
  induction ds with
  | nil => rfl
  | cons d l ih =>
    simp only [List.map_cons, List.flatten_cons, List.map_append, List.map_map] at ih ⊢
    rw [ih]
    simp [Function.comp]

theorem lookupMapFun {β γ : Type} (f : β → γ) (k : String) :
    ∀ (l : List (String × β)),
      (l.map (fun p => (p.1, f p.2))).lookup k = (l.lookup k).map f := by
  intro l
  induction l with
  | nil => rfl
  | cons p l ih =>
    obtain ⟨k2, v⟩ := p
    simp only [List.map_cons, List.lookup]
    cases h : k == k2 with
    | true => rfl
    | false => exact ih

theorem lookupNode_findRoots (t : DependencyTree) (name ver : String) (node : DepNode)
    (h : lookupNode t name ver = some node) :
    lookupNode (findRoots t) name ver =
      some (if isRootNode node then setRoot node else node) := by
  unfold lookupNode at h ⊢
  unfold findRoots
  simp only
  rw [lookupMapFun (fun vm : VersionMap =>
    (⟨vm.versions.map fun vn => (vn.1, if isRootNode vn.2 then setRoot vn.2 else vn.2)⟩ :
      VersionMap)) name]
  cases hl : t.lookupMap.lookup name with
  | none => rw [hl] at h; cases h
  | some vm =>
    rw [hl] at h
    simp only [Option.map_some', Option.some_bind] at h ⊢
    rw [lookupMapFun (fun n : DepNode => if isRootNode n then setRoot n else n) ver, h]
    rfl

/-- C3: findDependencyByRef returns undefined for every ref argument and
every state of the dependency list, because its for-in loop ranges over the
array index keys, strings without a ref field; consequently the branches of
buildBom that would reuse an existing relation holder are never taken: an
edge either leaves the state unchanged or allocates a fresh requester
holder linked to a fresh dependency holder. -/
theorem findDependencyByRef_always_undefined :
    (∀ (deps : List Dependency) (ref : Option String),
      findDependencyByRef deps ref = none) ∧
    (∀ (readPkgUp : String → Except Unit (Option ReadPkgUpResult)) (st : BomState)
      (m : ModuleData),
      processEdge readPkgUp st m = Except.ok st ∨
      ∃ dep fnd reqRef, m.resource = some dep ∧ readPkgUp dep = Except.ok (some fnd) ∧
        st.bomRefLookup.contains (toPackageURL fnd.package) = false ∧
        processEdge readPkgUp st m = Except.ok (insertState st reqRef fnd.package)) :=
  ⟨findDep_none, processEdge_spec⟩

/-- C4: after build the component set contains at most one Component per
canonical identity: the list of component references of the output is
duplicate-free, so two edges with the same dependency identity leave a
single Component for it. -/
theorem components_nodup_by_identity
    (readPkgUp : String → Except Unit (Option ReadPkgUpResult))
    (modules : List ModuleData) (st : BomState)
    (h : buildBom readPkgUp modules = Except.ok st) : (componentRefs st).Nodup :=
  (buildFrom_inv readPkgUp modules emptyBom st h invEmpty).1

theorem components_nodup_by_identity_witness :
    buildBom exResolve exModules = Except.ok exSt ∧ (componentRefs exSt).Nodup :=
  ⟨rfl, components_nodup_by_identity exResolve exModules exSt rfl⟩

/-- C5: at most one relation per ordered identity pair: the list of
recorded relation pairs of the output is duplicate-free, however many
module edges produced the pair. -/
theorem relations_nodup_by_pair
    (readPkgUp : String → Except Unit (Option ReadPkgUpResult))
    (modules : List ModuleData) (st : BomState)
    (h : buildBom readPkgUp modules = Except.ok st) : (relPairs st).Nodup := by
  have hi := buildFrom_inv readPkgUp modules emptyBom st h invEmpty
  refine List.Nodup.of_map Prod.snd ?_
  rw [relPairs_map_snd]
  exact hi.2.1

theorem relations_nodup_by_pair_witness :
    buildBom exResolve exModules = Except.ok exSt ∧ (relPairs exSt).Nodup :=
  ⟨rfl, relations_nodup_by_pair exResolve exModules exSt rfl⟩

/-- C6: every Component of the output wraps a dependency-side descriptor:
one located by readPkgUp from the resource path of some input edge.  A
requester endpoint therefore never becomes a Component unless its identity
also arises as some edge's dependency endpoint. -/
theorem components_only_from_dependency_side
    (readPkgUp : String → Except Unit (Option ReadPkgUpResult))
    (modules : List ModuleData) (st : BomState)
    (h : buildBom readPkgUp modules = Except.ok st) :
    ∀ c ∈ st.components, ∃ m ∈ modules, ∃ dep fnd, m.resource = some dep ∧
      readPkgUp dep = Except.ok (some fnd) ∧ c.package = fnd.package := by
  intro c hc
  rcases buildFrom_components readPkgUp modules emptyBom st h c hc with hin | hout
  · exact absurd hin (by simp [emptyBom])
  · exact hout

theorem components_only_from_dependency_side_witness :
    ∃ m ∈ exModules, ∃ dep fnd, m.resource = some dep ∧
      exResolve dep = Except.ok (some fnd) ∧
      ({ package := { name := some "d", scope := none, version := some "2.0.0", extra := [] } } :
        Component).package = fnd.package :=
  components_only_from_dependency_side exResolve exModules exSt rfl
    { package := { name := some "d", scope := none, version := some "2.0.0", extra := [] } }
    (by decide)

/-- C7: an edge with a missing or empty requester or dependency path, or
whose requester path starts with the literal token ignored or external, is
skipped before descriptor resolution and contributes no component and no
relation: the state is unchanged. -/
theorem filtered_edge_contributes_nothing
    (readPkgUp : String → Except Unit (Option ReadPkgUpResult))
    (st : BomState) (m : ModuleData)
    (h : m.issuer = none ∨ m.resource = none ∨ m.resource = some "" ∨
      ∃ iss, m.issuer = some iss ∧ (iss.resource = none ∨ iss.resource = some "" ∨
        ∃ req, iss.resource = some req ∧ ignoredMatcher req = true)) :
    processEdge readPkgUp st m = Except.ok st := by
  obtain ⟨iss, res⟩ := m
  rcases h with h | h | h | ⟨iss2, hiss, h⟩
  · change iss = none at h
    subst h
    rfl
  · change res = none at h
    subst h
    cases iss <;> rfl
  · change res = some "" at h
    subst h
    cases iss <;> simp [processEdge]
  · change iss = some iss2 at hiss
    subst hiss
    obtain ⟨ir⟩ := iss2
    rcases h with h | h | ⟨req, hir, hmat⟩
    · change ir = none at h
      subst h
      cases res with
      | none => rfl
      | some dep => simp [processEdge]
    · change ir = some "" at h
      subst h
      cases res with
      | none => rfl
      | some dep => simp [processEdge]
    · change ir = some req at hir
      subst hir
      cases res with
      | none => rfl
      | some dep => simp [processEdge, hmat]

theorem filtered_edge_contributes_nothing_witness :
    ignoredMatcher "external node:fs" = true ∧
    processEdge exResolve emptyBom
      { issuer := some { resource := some "external node:fs" }, resource := some "/x.js" } =
      Except.ok emptyBom :=
  ⟨by decide, filtered_edge_contributes_nothing exResolve emptyBom _
    (Or.inr (Or.inr (Or.inr ⟨{ resource := some "external node:fs" }, rfl,
      Or.inr (Or.inr ⟨"external node:fs", rfl, by decide⟩)⟩)))⟩

/-- C8: toPackageURL is a pure function of scope, name and version: it is
undefined exactly when the name is absent or empty, and two packages that
agree on name, scope and version receive the same identity string whatever
their other fields are. -/
theorem toPackageURL_pure_function :
    (∀ m : Pkg, toPackageURL m = none ↔ (m.name = none ∨ m.name = some "")) ∧
    (∀ m1 m2 : Pkg, m1.name = m2.name → m1.scope = m2.scope → m1.version = m2.version →
      toPackageURL m1 = toPackageURL m2) := by
  constructor
  · intro m
    cases hm : m.name with
    | none => simp [toPackageURL, jsTruthy, hm]
    | some s =>
      by_cases hs : s = ""
      · subst hs
        simp [toPackageURL, jsTruthy, hm]
      · simp [toPackageURL, jsTruthy, hm, hs]
  · intro m1 m2 h1 h2 h3
    simp only [toPackageURL, h1, h2, h3]

theorem toPackageURL_pure_function_witness :
    toPackageURL pkgA = toPackageURL pkgB ∧
    toPackageURL { name := none, scope := none, version := none, extra := [] } = none :=
  ⟨toPackageURL_pure_function.2 pkgA pkgB rfl rfl rfl,
   (toPackageURL_pure_function.1 _).mpr (Or.inl rfl)⟩

/-- C9: a readPkgUp failure (a throw or an empty result) on either endpoint
of an edge makes the edge contribute nothing and the loop continue: the
edge leaves the state unchanged, and the whole build always returns ok, so
such a failure never propagates out of the build. -/
theorem resolution_failure_nonfatal :
    (∀ (readPkgUp : String → Except Unit (Option ReadPkgUpResult)) (st : BomState)
      (req dep : String),
      (resolveFails readPkgUp req = true ∨ resolveFails readPkgUp dep = true) →
      processEdge readPkgUp st
        { issuer := some { resource := some req }, resource := some dep } = Except.ok st) ∧
    (∀ (readPkgUp : String → Except Unit (Option ReadPkgUpResult))
      (modules : List ModuleData), ∃ st, buildBom readPkgUp modules = Except.ok st) := by
  constructor
  · intro readPkgUp st req dep h
    by_cases hdep : (dep == "") = true
    · simp [processEdge, hdep]
    · by_cases hreq : (req == "") = true
      · simp [processEdge, hdep, hreq]
      · by_cases hig : ignoredMatcher req = true
        · simp [processEdge, hdep, hreq, hig]
        · cases hr : readPkgUp req with
          | error e => simp [processEdge, hdep, hreq, hig, hr]
          | ok v =>
            cases v with
            | none => simp [processEdge, hdep, hreq, hig, hr]
            | some rp =>
              cases hd : readPkgUp dep with
              | error e => simp [processEdge, hdep, hreq, hig, hr, hd]
              | ok w =>
                cases w with
                | none => simp [processEdge, hdep, hreq, hig, hr, hd]
                | some dp =>
                  exfalso
                  rcases h with h | h
                  · simp [resolveFails, hr] at h
                  · simp [resolveFails, hd] at h
  · intro readPkgUp modules
    exact buildFrom_ok readPkgUp modules emptyBom

theorem resolution_failure_nonfatal_witness :
    resolveFails failResolve "/a.js" = true ∧
    processEdge failResolve emptyBom
      { issuer := some { resource := some "/a.js" }, resource := some "/b.js" } =
      Except.ok emptyBom :=
  ⟨rfl, resolution_failure_nonfatal.1 failResolve emptyBom "/a.js" "/b.js" (Or.inl rfl)⟩

/-- C1 as stated is false on the code: on exModules the second edge
survives filtering, both endpoints resolve to packages and both identities
are defined, yet because its dependency identity was already seen as a
Component the edge contributes no relation: the pair from r2 to d is absent
from the output graph. -/
theorem relation_for_seen_dependency_missing :
    buildBom exResolve exModules = Except.ok exSt ∧
    exResolve "/r2/b.js" = Except.ok (some r2Found) ∧
    exResolve "/d/c.js" = Except.ok (some dFound) ∧
    ignoredMatcher "/r2/b.js" = false ∧
    toPackageURL r2Found.package = some "pkg:npm/r2@1.0.0" ∧
    toPackageURL dFound.package = some "pkg:npm/d@2.0.0" ∧
    (some "pkg:npm/r2@1.0.0", some "pkg:npm/d@2.0.0") ∉ relPairs exSt := by
  exact ⟨rfl, rfl, rfl, by decide, rfl, rfl, by decide⟩

/-- C1 amended: for every edge that survives filtering, whose two endpoints
resolve to packages and whose two identities are defined, and whose
dependency identity has not already been seen as a Component when the edge
is processed, the relation from the requester identity to the dependency
identity is recorded in the output graph. -/
theorem relation_recorded_for_fresh_dependency
    (readPkgUp : String → Except Unit (Option ReadPkgUpResult))
    (pre post : List ModuleData) (req dep : String) (rp dp : ReadPkgUpResult)
    (a b : String) (stPre st : BomState)
    (hreq : (req == "") = false) (hdep : (dep == "") = false)
    (hig : ignoredMatcher req = false)
    (hr : readPkgUp req = Except.ok (some rp)) (hd : readPkgUp dep = Except.ok (some dp))
    (ha : toPackageURL rp.package = some a) (hb : toPackageURL dp.package = some b)
    (hpre : buildBom readPkgUp pre = Except.ok stPre)
    (hfresh : stPre.bomRefLookup.contains (some b) = false)
    (hall : buildBom readPkgUp
      (pre ++ { issuer := some { resource := some req }, resource := some dep } :: post) =
      Except.ok st) :
    (some a, some b) ∈ relPairs st := by
  have hsplit := buildFrom_append readPkgUp pre
    ({ issuer := some { resource := some req }, resource := some dep } :: post)
    emptyBom stPre hpre
  rw [buildBom, hsplit] at hall
  have hstep : processEdge readPkgUp stPre
      { issuer := some { resource := some req }, resource := some dep } =
      Except.ok (insertState stPre (toPackageURL rp.package) dp.package) :=
    processEdge_insert readPkgUp stPre req dep rp dp hreq hdep hig hr hd
      (by rw [hb]; exact hfresh)
  rw [List.foldlM_cons, hstep, exceptOkBind] at hall
  refine relPairs_fold_mono readPkgUp post _ st hall (some a, some b) ?_
  rw [relPairs_insertState, ha, hb]
  exact List.mem_append_right _ (List.mem_singleton.mpr rfl)

theorem relation_recorded_for_fresh_dependency_witness :
    buildBom exResolve exModules = Except.ok exSt ∧
    (some "pkg:npm/r1@1.0.0", some "pkg:npm/d@2.0.0") ∈ relPairs exSt :=
  ⟨rfl, relation_recorded_for_fresh_dependency exResolve []
    [{ issuer := some { resource := some "/r2/b.js" }, resource := some "/d/c.js" }]
    "/r1/a.js" "/d/c.js" r1Found dFound
    "pkg:npm/r1@1.0.0" "pkg:npm/d@2.0.0" emptyBom exSt
    rfl rfl (by decide) rfl rfl rfl rfl rfl rfl rfl⟩

/-- C2 fails on the code: a single edge whose two endpoints resolve to the
same package produces the self-loop relation from the package identity to
itself, because the broken findDependencyByRef defeats the guard that would
compare the requester holder with the dependency holder. -/
theorem self_loop_recorded :
    buildBom selfResolve selfModules = Except.ok selfSt ∧
    (selfLoopRef, selfLoopRef) ∈ relPairs selfSt :=
  ⟨rfl, by decide⟩

/-- C10: findRoots marks a node as a root package and appends it to the
roots exactly when its requiredBy list is empty and at least one of its
locations lies outside node_modules; a node failing the condition is left
unchanged in the lookup map. -/
theorem findRoots_marks_exactly_roots (t : DependencyTree) :
    ((findRoots t).roots = t.roots ++ ((allNodes t).filter isRootNode).map setRoot) ∧
    (∀ name ver node, lookupNode t name ver = some node →
      lookupNode (findRoots t) name ver =
        some (if isRootNode node then setRoot node else node)) ∧
    (∀ node : DepNode, isRootNode node = true ↔
      (node.requiredBy = [] ∧ ∃ l ∈ node.locations, strIncludes l "node_modules" = false)) := by
  refine ⟨rfl, ?_, ?_⟩
  · intro name ver node h
    exact lookupNode_findRoots t name ver node h
  · intro node
    simp [isRootNode, List.any_eq_true, List.length_eq_zero]

theorem findRoots_marks_exactly_roots_witness :
    lookupNode exTree "app" "1.0.0" = some rootNode ∧
    (findRoots exTree).roots = [setRoot rootNode] ∧
    lookupNode (findRoots exTree) "app" "1.0.0" =
      some (if isRootNode rootNode then setRoot rootNode else rootNode) :=
  ⟨by decide, by decide,
    (findRoots_marks_exactly_roots exTree).2.1 "app" "1.0.0" rootNode (by decide)⟩

end Bomgen
